import Mathlib

/-!
Verification development for the working-memory and retrieval engine of the
`hands` repository.  Each section shallowly embeds one source module (JS/TS
numbers become `ℚ`, timestamps become `ℚ` or `ℕ` milliseconds, fallible code
returns `Option`/`Except`), and the theorems at the end of the file settle
the specification claims against those embeddings.
-/

namespace Hands

/-! ## Hybrid retrieval merger (`src/memory/hybrid.ts`) -/

/-- Piecewise recency decay as a function of the age in hours.
Body of `computeRecencyBoost` after `ageHours` has been computed
(`src/memory/hybrid.ts` lines 60-64).  `expFn` stands for the library
function `x ↦ Math.exp (-x)`; it is only ever applied to nonnegative
arguments, and theorems that need facts about it take them as hypotheses. -/
def decayOfAgeHours (expFn : ℚ → ℚ) (ageHours : ℚ) : ℚ :=
  if ageHours ≤ 24 then 1
  else if ageHours ≤ 24 * 7 then 0.85 + 0.15 * (1 - (ageHours - 24) / (24 * 6))
  else if ageHours ≤ 24 * 30 then 0.6 + 0.25 * (1 - (ageHours - 24 * 7) / (24 * 23))
  else if ageHours ≤ 24 * 90 then 0.3 + 0.3 * (1 - (ageHours - 24 * 30) / (24 * 60))
  else max 0.1 (0.3 * expFn ((ageHours - 24 * 90) / (24 * 180)))

/-- `computeRecencyBoost(updatedAt, now)` (`src/memory/hybrid.ts` lines 54-65).
`updatedAt = none` models a missing (`undefined`) timestamp; the JS guard
`!updatedAt || updatedAt <= 0` is `none` or `some u` with `u ≤ 0`.
Times are in milliseconds. -/
def computeRecencyBoost (expFn : ℚ → ℚ) (updatedAt : Option ℚ) (now : ℚ) : ℚ :=
  match updatedAt with
  | none => 0.5
  | some u =>
    if u ≤ 0 then 0.5
    else decayOfAgeHours expFn (max 0 (now - u) / (1000 * 60 * 60))

/-- Default recency weight (`DEFAULT_RECENCY_WEIGHT`). -/
def DEFAULT_RECENCY_WEIGHT : ℚ := 0.15

structure HybridVectorResult where
  id : String
  path : String
  startLine : Int
  endLine : Int
  source : String
  snippet : String
  vectorScore : ℚ
  updatedAt : Option ℚ
deriving DecidableEq

structure HybridKeywordResult where
  id : String
  path : String
  startLine : Int
  endLine : Int
  source : String
  snippet : String
  textScore : ℚ
  updatedAt : Option ℚ
deriving DecidableEq

/-- The per-id accumulator entry stored in the `byId` map of
`mergeHybridResults` (`src/memory/hybrid.ts` lines 89-102). -/
structure MergedEntry where
  id : String
  path : String
  startLine : Int
  endLine : Int
  source : String
  snippet : String
  vectorScore : ℚ
  textScore : ℚ
  updatedAt : Option ℚ
deriving DecidableEq

/-- JS truthiness of an optional number: `undefined` and `0` are falsy. -/
def jsTruthy : Option ℚ → Bool
  | none => false
  | some v => v != 0

/-- `byId.set(r.id, ...)`: a JS `Map` keeps insertion order and overwrites
the value in place when the key already exists. -/
def setById (m : List MergedEntry) (e : MergedEntry) : List MergedEntry :=
  match m with
  | [] => [e]
  | x :: xs => if x.id = e.id then e :: xs else x :: setById xs e

/-- The vector pass of `mergeHybridResults` (lines 104-116). -/
def entryOfVector (r : HybridVectorResult) : MergedEntry :=
  { id := r.id, path := r.path, startLine := r.startLine, endLine := r.endLine,
    source := r.source, snippet := r.snippet, vectorScore := r.vectorScore,
    textScore := 0, updatedAt := r.updatedAt }

/-- The keyword pass when the id is new (lines 130-140). -/
def entryOfKeyword (r : HybridKeywordResult) : MergedEntry :=
  { id := r.id, path := r.path, startLine := r.startLine, endLine := r.endLine,
    source := r.source, snippet := r.snippet, vectorScore := 0,
    textScore := r.textScore, updatedAt := r.updatedAt }

/-- Line 126: `if (r.updatedAt && (!existing.updatedAt || r.updatedAt > existing.updatedAt))`. -/
def preferNewer (ex ru : Option ℚ) : Option ℚ :=
  match ru with
  | none => ex
  | some v =>
    if v = 0 then ex
    else
      match ex with
      | none => some v
      | some w => if w = 0 then some v else if v > w then some v else ex

/-- The keyword pass when the id already exists (lines 120-128): take the
keyword `textScore`, prefer a non-empty keyword snippet, keep the most
recent truthy `updatedAt`. -/
def applyKeyword (x : MergedEntry) (r : HybridKeywordResult) : MergedEntry :=
  let x1 := { x with textScore := r.textScore }
  let x2 := if r.snippet.length > 0 then { x1 with snippet := r.snippet } else x1
  { x2 with updatedAt := preferNewer x2.updatedAt r.updatedAt }

/-- One keyword result folded into the map (lines 118-142). -/
def mergeKeyword (m : List MergedEntry) (r : HybridKeywordResult) : List MergedEntry :=
  match m with
  | [] => [entryOfKeyword r]
  | x :: xs => if x.id = r.id then applyKeyword x r :: xs else x :: mergeKeyword xs r

/-- Union of the two result lists by id, in `byId` insertion order. -/
def unionById (vector : List HybridVectorResult) (keyword : List HybridKeywordResult) :
    List MergedEntry :=
  let m := vector.foldl (fun acc r => setById acc (entryOfVector r)) []
  keyword.foldl mergeKeyword m

/-- Weight normalization (lines 144-148): each weight is divided by the total
when the total is positive, and all three normalized weights are `0` otherwise. -/
def normalizeWeights (vectorWeight textWeight recencyWeight : ℚ) : ℚ × ℚ × ℚ :=
  let totalWeight := vectorWeight + textWeight + recencyWeight
  if totalWeight > 0 then
    (vectorWeight / totalWeight, textWeight / totalWeight, recencyWeight / totalWeight)
  else (0, 0, 0)

structure HybridOut where
  path : String
  startLine : Int
  endLine : Int
  score : ℚ
  snippet : String
  source : String
  updatedAt : Option ℚ
deriving DecidableEq

/-- Scoring one merged entry (lines 150-163). -/
def scoreEntry (expFn : ℚ → ℚ) (normVector normText normRecency now : ℚ)
    (e : MergedEntry) : HybridOut :=
  { path := e.path, startLine := e.startLine, endLine := e.endLine,
    score := normVector * e.vectorScore + normText * e.textScore
      + normRecency * computeRecencyBoost expFn e.updatedAt now,
    snippet := e.snippet, source := e.source, updatedAt := e.updatedAt }

/-- `mergeHybridResults` (lines 70-166).  `now` models the `Date.now()` call,
`recencyWeightOpt = none` the omitted optional parameter.  The final
`toSorted((a, b) => b.score - a.score)` is a stable sort by non-increasing
score. -/
def mergeHybridResults (expFn : ℚ → ℚ) (now : ℚ)
    (vector : List HybridVectorResult) (keyword : List HybridKeywordResult)
    (vectorWeight textWeight : ℚ) (recencyWeightOpt : Option ℚ) : List HybridOut :=
  let recencyWeight := recencyWeightOpt.getD DEFAULT_RECENCY_WEIGHT
  let norms := normalizeWeights vectorWeight textWeight recencyWeight
  let merged := (unionById vector keyword).map
    (scoreEntry expFn norms.1 norms.2.1 norms.2.2 now)
  merged.mergeSort (fun a b => decide (b.score ≤ a.score))

/-- Concrete stand-in for `x ↦ Math.exp (-x)` used by witnesses: it shares
the properties the theorems assume (value at most `1` and antitone on the
nonnegative axis). -/
def expModel (x : ℚ) : ℚ := 1 / (1 + max 0 x)

theorem expModel_le_one : ∀ x : ℚ, 0 ≤ x → expModel x ≤ 1 := by
  intro x hx
  unfold expModel
  rw [div_le_one (by positivity)]
  have h0 : (0:ℚ) ≤ max 0 x := le_max_left _ _
  linarith

theorem expModel_anti : ∀ x y : ℚ, 0 ≤ x → x ≤ y → expModel y ≤ expModel x := by
  intro x y hx hxy
  unfold expModel
  apply div_le_div_of_nonneg_left (by norm_num) (by positivity)
  have : max 0 x ≤ max 0 y := max_le_max le_rfl hxy
  linarith

/-- The tail branch of the decay is bounded by `0.3` once the age is past
90 days, provided the exponential is at most `1` on nonnegative inputs. -/
theorem decay_tail_le (expFn : ℚ → ℚ) (hle1 : ∀ x : ℚ, 0 ≤ x → expFn x ≤ 1)
    {x : ℚ} (hx : (2160 : ℚ) < x) :
    max 0.1 (0.3 * expFn ((x - 24 * 90) / (24 * 180))) ≤ 0.3 := by
  apply max_le (by norm_num)
  have h0 : (0:ℚ) ≤ (x - 24 * 90) / (24 * 180) := by
    apply div_nonneg (by linarith) (by norm_num)
  have := hle1 _ h0
  nlinarith

/-- The decay is non-increasing in the age. -/
theorem decayOfAgeHours_anti (expFn : ℚ → ℚ)
    (hmono : ∀ x y : ℚ, 0 ≤ x → x ≤ y → expFn y ≤ expFn x)
    (hle1 : ∀ x : ℚ, 0 ≤ x → expFn x ≤ 1)
    {a b : ℚ} (hab : a ≤ b) :
    decayOfAgeHours expFn b ≤ decayOfAgeHours expFn a := by
  unfold decayOfAgeHours
  split_ifs <;>
    first
      | linarith
      | (exact le_trans (decay_tail_le expFn hle1 (by linarith)) (by linarith))
      | (exact max_le_max le_rfl
          (mul_le_mul_of_nonneg_left
            (hmono _ _ (by apply div_nonneg (by linarith) (by norm_num))
              ((div_le_div_iff_of_pos_right (by norm_num)).mpr (by linarith)))
            (by norm_num)))

/-- The decay never drops below `0.1`. -/
theorem decayOfAgeHours_floor (expFn : ℚ → ℚ) (h : ℚ) :
    0.1 ≤ decayOfAgeHours expFn h := by
  unfold decayOfAgeHours
  split_ifs <;> first | linarith | exact le_max_left _ _

/-- C3: for every known timestamp whose age is between 0 and 24 hours
inclusive, `computeRecencyBoost` returns exactly `1.0`; at age 90 days it
returns `0.3`; the older of two known timestamps never receives a strictly
larger boost than the newer one; and the boost never drops below the floor
`0.1` for known timestamps.  `expFn` stands for `x ↦ Math.exp (-x)`, whose
relevant properties (at most `1` and antitone on nonnegative inputs) are
hypotheses. -/
theorem claim_C3 (expFn : ℚ → ℚ)
    (hmono : ∀ x y : ℚ, 0 ≤ x → x ≤ y → expFn y ≤ expFn x)
    (hle1 : ∀ x : ℚ, 0 ≤ x → expFn x ≤ 1) :
    (∀ u now : ℚ, 0 < u → 0 ≤ now - u → now - u ≤ 24 * 3600000 →
      computeRecencyBoost expFn (some u) now = 1)
    ∧ (∀ u now : ℚ, 0 < u → now - u = 90 * 24 * 3600000 →
      computeRecencyBoost expFn (some u) now = 0.3)
    ∧ (∀ u u' now : ℚ, 0 < u → 0 < u' → u ≤ u' →
      computeRecencyBoost expFn (some u) now ≤ computeRecencyBoost expFn (some u') now)
    ∧ (∀ u now : ℚ, 0 < u →
      0.1 ≤ computeRecencyBoost expFn (some u) now) := by
  refine ⟨?_, ?_, ?_, ?_⟩
  · intro u now hu h0 h24
    have hmax : max 0 (now - u) = now - u := max_eq_right h0
    simp only [computeRecencyBoost, if_neg (not_le.mpr hu), hmax]
    unfold decayOfAgeHours
    rw [if_pos (by linarith)]
  · intro u now hu h90
    have hmax : max 0 (now - u) = now - u := max_eq_right (by rw [h90]; norm_num)
    simp only [computeRecencyBoost, if_neg (not_le.mpr hu), hmax, h90]
    unfold decayOfAgeHours
    norm_num
  · intro u u' now hu hu' huu
    simp only [computeRecencyBoost, if_neg (not_le.mpr hu), if_neg (not_le.mpr hu')]
    apply decayOfAgeHours_anti expFn hmono hle1
    have : max 0 (now - u') ≤ max 0 (now - u) := max_le_max le_rfl (by linarith)
    exact (div_le_div_iff_of_pos_right (by norm_num)).mpr this
  · intro u now hu
    simp only [computeRecencyBoost, if_neg (not_le.mpr hu)]
    exact decayOfAgeHours_floor expFn _

/-- Witness for C3 at concrete inputs: a timestamp one hour old gets boost
exactly `1`. -/
theorem claim_C3_witness :
    0 < (1000 : ℚ) ∧ 0 ≤ (1000 + 3600000 : ℚ) - 1000
    ∧ (1000 + 3600000 : ℚ) - 1000 ≤ 24 * 3600000
    ∧ computeRecencyBoost expModel (some 1000) (1000 + 3600000) = 1 :=
  ⟨by norm_num, by norm_num, by norm_num,
    (claim_C3 expModel expModel_anti expModel_le_one).1 1000 (1000 + 3600000)
      (by norm_num) (by norm_num) (by norm_num)⟩

/-- C9: when the supplied weights sum to zero or less, `mergeHybridResults`
never divides by the non-positive total: all three normalized weights are
`0` and every returned result has score exactly `0`. -/
theorem claim_C9 (expFn : ℚ → ℚ) (now : ℚ)
    (vector : List HybridVectorResult) (keyword : List HybridKeywordResult)
    (vw tw : ℚ) (rwOpt : Option ℚ)
    (h : vw + tw + rwOpt.getD DEFAULT_RECENCY_WEIGHT ≤ 0) :
    normalizeWeights vw tw (rwOpt.getD DEFAULT_RECENCY_WEIGHT) = (0, 0, 0)
    ∧ ∀ r ∈ mergeHybridResults expFn now vector keyword vw tw rwOpt, r.score = 0 := by
  have hnw : normalizeWeights vw tw (rwOpt.getD DEFAULT_RECENCY_WEIGHT) = (0, 0, 0) := by
    unfold normalizeWeights
    rw [if_neg (not_lt.mpr h)]
  refine ⟨hnw, ?_⟩
  intro r hr
  unfold mergeHybridResults at hr
  rw [List.mem_mergeSort, hnw] at hr
  obtain ⟨e, _, rfl⟩ := List.mem_map.mp hr
  simp [scoreEntry]

/-- Witness for C9: all-zero weights on a one-element vector list. -/
theorem claim_C9_witness :
    (0 : ℚ) + 0 + (some (0:ℚ)).getD DEFAULT_RECENCY_WEIGHT ≤ 0
    ∧ (normalizeWeights 0 0 ((some (0:ℚ)).getD DEFAULT_RECENCY_WEIGHT) = (0, 0, 0)
      ∧ ∀ r ∈ mergeHybridResults expModel 0
          [{ id := "a", path := "p", startLine := 1, endLine := 2, source := "s",
             snippet := "x", vectorScore := 1, updatedAt := none }] [] 0 0 (some 0),
          r.score = 0) :=
  ⟨by norm_num,
    claim_C9 expModel 0
      [{ id := "a", path := "p", startLine := 1, endLine := 2, source := "s",
         snippet := "x", vectorScore := 1, updatedAt := none }] [] 0 0 (some 0)
      (by norm_num)⟩

/-- C2 as stated is false: for the weight choice `vectorWeight = 0`,
`textWeight = 0`, `recencyWeight = 0` the three normalized weights used in
scoring sum to `0`, not `1`. -/
theorem claim_C2_counterexample :
    ¬ ((normalizeWeights 0 0 ((some (0:ℚ)).getD DEFAULT_RECENCY_WEIGHT)).1
      + (normalizeWeights 0 0 ((some (0:ℚ)).getD DEFAULT_RECENCY_WEIGHT)).2.1
      + (normalizeWeights 0 0 ((some (0:ℚ)).getD DEFAULT_RECENCY_WEIGHT)).2.2 = 1) := by
  simp [normalizeWeights]

/-- C2 (amended): the output of `mergeHybridResults` is sorted by
non-increasing score for every input, and whenever the three weights sum to
a positive total the normalized weights sum to `1` and each result's score
is `normVector * vectorScore + normText * textScore + normRecency *
recencyBoost` of the merged entry it was built from. -/
theorem claim_C2 (expFn : ℚ → ℚ) (now : ℚ)
    (vector : List HybridVectorResult) (keyword : List HybridKeywordResult)
    (vw tw : ℚ) (rwOpt : Option ℚ) :
    List.Sorted (fun a b : HybridOut => b.score ≤ a.score)
      (mergeHybridResults expFn now vector keyword vw tw rwOpt)
    ∧ (0 < vw + tw + rwOpt.getD DEFAULT_RECENCY_WEIGHT →
      (normalizeWeights vw tw (rwOpt.getD DEFAULT_RECENCY_WEIGHT)).1
        + (normalizeWeights vw tw (rwOpt.getD DEFAULT_RECENCY_WEIGHT)).2.1
        + (normalizeWeights vw tw (rwOpt.getD DEFAULT_RECENCY_WEIGHT)).2.2 = 1
      ∧ ∀ r ∈ mergeHybridResults expFn now vector keyword vw tw rwOpt,
          ∃ e ∈ unionById vector keyword,
            r.score = (normalizeWeights vw tw (rwOpt.getD DEFAULT_RECENCY_WEIGHT)).1
                * e.vectorScore
              + (normalizeWeights vw tw (rwOpt.getD DEFAULT_RECENCY_WEIGHT)).2.1
                * e.textScore
              + (normalizeWeights vw tw (rwOpt.getD DEFAULT_RECENCY_WEIGHT)).2.2
                * computeRecencyBoost expFn e.updatedAt now) := by
  constructor
  · have hp := @List.sorted_mergeSort HybridOut
      (fun a b : HybridOut => decide (b.score ≤ a.score))
      (fun a b c hab hbc => by
        simp only [decide_eq_true_eq] at *
        exact le_trans hbc hab)
      (fun a b => by
        simp only [Bool.or_eq_true, decide_eq_true_eq]
        exact le_total b.score a.score)
      ((unionById vector keyword).map
        (scoreEntry expFn (normalizeWeights vw tw (rwOpt.getD DEFAULT_RECENCY_WEIGHT)).1
          (normalizeWeights vw tw (rwOpt.getD DEFAULT_RECENCY_WEIGHT)).2.1
          (normalizeWeights vw tw (rwOpt.getD DEFAULT_RECENCY_WEIGHT)).2.2 now))
    unfold mergeHybridResults
    exact hp.imp (fun h => of_decide_eq_true h)
  · intro hpos
    constructor
    · unfold normalizeWeights
      rw [if_pos hpos]
      have hne : vw + tw + rwOpt.getD DEFAULT_RECENCY_WEIGHT ≠ 0 := ne_of_gt hpos
      field_simp
    · intro r hr
      unfold mergeHybridResults at hr
      rw [List.mem_mergeSort] at hr
      obtain ⟨e, he, rfl⟩ := List.mem_map.mp hr
      exact ⟨e, he, rfl⟩

/-- Witness for C2 at a concrete positive-total weight choice. -/
theorem claim_C2_witness :
    (0 < (1:ℚ) + 1 + (some (1:ℚ)).getD DEFAULT_RECENCY_WEIGHT)
    ∧ ((normalizeWeights 1 1 ((some (1:ℚ)).getD DEFAULT_RECENCY_WEIGHT)).1
        + (normalizeWeights 1 1 ((some (1:ℚ)).getD DEFAULT_RECENCY_WEIGHT)).2.1
        + (normalizeWeights 1 1 ((some (1:ℚ)).getD DEFAULT_RECENCY_WEIGHT)).2.2 = 1
      ∧ ∀ r ∈ mergeHybridResults expModel 0 [] [] 1 1 (some 1),
          ∃ e ∈ unionById [] [],
            r.score = (normalizeWeights 1 1 ((some (1:ℚ)).getD DEFAULT_RECENCY_WEIGHT)).1
                * e.vectorScore
              + (normalizeWeights 1 1 ((some (1:ℚ)).getD DEFAULT_RECENCY_WEIGHT)).2.1
                * e.textScore
              + (normalizeWeights 1 1 ((some (1:ℚ)).getD DEFAULT_RECENCY_WEIGHT)).2.2
                * computeRecencyBoost expModel e.updatedAt 0) :=
  ⟨by norm_num, (claim_C2 expModel 0 [] [] 1 1 (some 1)).2 (by norm_num)⟩

/-! ## Correction store (`src/memory/correction-store.ts`) -/

inductive CorrectionCategory
  | factual | behavioral | preference | procedural
deriving DecidableEq

structure CorrectionEntry where
  id : String
  timestamp : Int
  context : String
  agentSaid : String
  correctionText : String
  rule : String
  category : CorrectionCategory
  confidence : ℚ
  accessCount : Nat
  lastAccessed : Option Int
deriving DecidableEq

/-- The pruning comparator of `addCorrection` (lines 61-65): `a` sorts before
`b` when it has the higher `accessCount`, or the same `accessCount` and the
more recent `timestamp`. -/
def correctionLE (a b : CorrectionEntry) : Bool :=
  decide (b.accessCount < a.accessCount
    ∨ (a.accessCount = b.accessCount ∧ b.timestamp ≤ a.timestamp))

theorem correctionLE_trans (a b c : CorrectionEntry)
    (hab : correctionLE a b = true) (hbc : correctionLE b c = true) :
    correctionLE a c = true := by
  simp only [correctionLE, decide_eq_true_eq] at *
  rcases hab with h1 | ⟨h1, h1'⟩ <;> rcases hbc with h2 | ⟨h2, h2'⟩
  · exact Or.inl (lt_trans h2 h1)
  · exact Or.inl (h2 ▸ h1)
  · exact Or.inl (h1 ▸ h2)
  · exact Or.inr ⟨h1.trans h2, le_trans h2' h1'⟩

theorem correctionLE_total (a b : CorrectionEntry) :
    (correctionLE a b || correctionLE b a) = true := by
  simp only [correctionLE, Bool.or_eq_true, decide_eq_true_eq]
  rcases lt_trichotomy a.accessCount b.accessCount with h | h | h
  · exact Or.inr (Or.inl h)
  · rcases le_total b.timestamp a.timestamp with ht | ht
    · exact Or.inl (Or.inr ⟨h, ht⟩)
    · exact Or.inr (Or.inr ⟨h.symm, ht⟩)
  · exact Or.inl (Or.inl h)

/-- `addCorrection` (lines 47-71): the new entry gets a fresh id (passed
explicitly here, modelling `randomUUID()`) and `accessCount = 0`, is
inserted at the head, and when the store exceeds 500 entries it is sorted
by (accessCount desc, timestamp desc) and truncated to 500. -/
def addCorrection (newId : String) (entry : CorrectionEntry)
    (list : List CorrectionEntry) : List CorrectionEntry :=
  let newEntry := { entry with id := newId, accessCount := 0 }
  let list1 := newEntry :: list
  if list1.length > 500 then (list1.mergeSort correctionLE).take 500 else list1

/-- C4: after any `addCorrection` call the store holds at most 500 entries;
inserting into a store already holding 500 leaves exactly 500; and whenever
an entry with `accessCount = 0` survives the pruning, every entry of the
pre-pruning list with `accessCount = 50` also survives. -/
theorem claim_C4 (newId : String) (entry : CorrectionEntry)
    (list : List CorrectionEntry) :
    (addCorrection newId entry list).length ≤ 500
    ∧ (list.length = 500 → (addCorrection newId entry list).length = 500)
    ∧ (∀ x y : CorrectionEntry, x ∈ addCorrection newId entry list →
        x.accessCount = 0 →
        y ∈ ({ entry with id := newId, accessCount := 0 } :: list) →
        y.accessCount = 50 → y ∈ addCorrection newId entry list) := by
  unfold addCorrection
  dsimp only
  refine ⟨?_, ?_, ?_⟩
  · split_ifs with h
    · rw [List.length_take, List.length_mergeSort]
      exact min_le_left _ _
    · simpa using not_lt.mp h
  · intro h500
    rw [if_pos (by simp [h500])]
    rw [List.length_take, List.length_mergeSort]
    simp [h500]
  · intro x y hx hx0 hy hy50
    split_ifs with h
    · rw [if_pos h] at hx
      by_contra hyn
      have hymem : y ∈ ({ entry with id := newId, accessCount := 0 } :: list).mergeSort
          correctionLE := List.mem_mergeSort.mpr hy
      have hsplit := List.take_append_drop 500
        (({ entry with id := newId, accessCount := 0 } :: list).mergeSort correctionLE)
      have hydrop : y ∈ (({ entry with id := newId, accessCount := 0 } :: list).mergeSort
          correctionLE).drop 500 := by
        rcases (List.mem_append.mp (hsplit ▸ hymem)) with h1 | h1
        · exact absurd h1 hyn
        · exact h1
      have hsorted := List.sorted_mergeSort correctionLE_trans correctionLE_total
        ({ entry with id := newId, accessCount := 0 } :: list)
      rw [← hsplit] at hsorted
      have hrel := (List.pairwise_append.mp hsorted).2.2 x hx y hydrop
      simp only [correctionLE, decide_eq_true_eq, hx0, hy50] at hrel
      omega
    · exact hy

/-- Witness entries for C4. -/
def corr0 : CorrectionEntry :=
  { id := "x", timestamp := 1, context := "c", agentSaid := "a",
    correctionText := "t", rule := "r", category := .factual,
    confidence := 1, accessCount := 0, lastAccessed := none }

def corr50 : CorrectionEntry := { corr0 with id := "y", accessCount := 50 }

/-- Witness for C4: a full store of 500 entries stays at 500 after an
insert, and on a small store a surviving zero-access entry forces the
50-access entry to survive too. -/
theorem claim_C4_witness :
    (List.replicate 500 corr50).length = 500
    ∧ (addCorrection "nid" corr0 (List.replicate 500 corr50)).length = 500
    ∧ ({ corr0 with id := "nid", accessCount := 0 }
        ∈ addCorrection "nid" corr0 [corr50]
      ∧ corr50 ∈ addCorrection "nid" corr0 [corr50]) :=
  ⟨by simp only [List.length_replicate],
    (claim_C4 "nid" corr0 (List.replicate 500 corr50)).2.1
      (by simp only [List.length_replicate]),
    by decide,
    (claim_C4 "nid" corr0 [corr50]).2.2
      { corr0 with id := "nid", accessCount := 0 } corr50
      (by decide) (by decide) (by decide) (by decide)⟩

/-! ## Task ledger (task-ledger module, `src/unnamed/part_010`) -/

/-- A ledger task.  `status` is one of `"active" | "blocked" | "waiting" |
"done" | "cancelled"` and `priority` one of `"critical" | "high" | "normal"
| "low"`; both are kept as strings because the proactive-trigger evaluator
reads the same records back from raw JSON and compares them against string
literals. -/
structure Task where
  id : String
  title : String
  status : String
  priority : String
  context : String
  nextAction : Option String
  blocker : Option String
  waitingFor : Option String
  parentId : Option String
  tags : Option (List String)
  createdAt : String
  updatedAt : String
  completedAt : Option String
deriving DecidableEq

def MAX_TASKS : Nat := 100
def MAX_ACTIVE_TASKS : Nat := 25
def MAX_CONTEXT_CHARS : Nat := 2000
def MAX_TITLE_CHARS : Nat := 200

/-- The non-terminal filter of `createTask` (lines 107-109). -/
def isNonTerminal (t : Task) : Bool :=
  t.status == "active" || t.status == "blocked" || t.status == "waiting"

/-- Comparator of the auto-prune sort (line 119): ascending `updatedAt`
(ISO-8601 strings compare lexicographically, which is chronological). -/
def updatedAtLE (a b : Task) : Bool := a.updatedAt ≤ b.updatedAt

/-- The auto-prune step of `createTask` (lines 115-124): collect terminal
tasks, sort them oldest-updated first, and remove up to 10 of them. -/
def pruneTerminal (tasks : List Task) : List Task :=
  let pruneable := (tasks.filter
    (fun t => t.status == "done" || t.status == "cancelled")).mergeSort updatedAtLE
  if pruneable.length > 0 then
    let toRemove := (pruneable.take 10).map (fun t => t.id)
    tasks.filter (fun t => !(toRemove.contains t.id))
  else tasks

structure CreateTaskParams where
  title : String
  context : Option String
  priority : Option String
  nextAction : Option String
  parentId : Option String
  tags : Option (List String)

/-- `createTask` (lines 93-143).  `newId` models `randomUUID().slice(0, 8)`
and `now` the ISO timestamp.  Returns the new ledger contents together with
the created task, or the capacity error thrown when 25 or more non-terminal
tasks exist. -/
def createTask (newId now : String) (tasks : List Task) (p : CreateTaskParams) :
    Except String (List Task × Task) :=
  let activeTasks := tasks.filter isNonTerminal
  if activeTasks.length ≥ MAX_ACTIVE_TASKS then
    .error "Maximum 25 active tasks reached. Complete or cancel existing tasks first."
  else
    let tasks1 := if tasks.length ≥ MAX_TASKS then pruneTerminal tasks else tasks
    let task : Task :=
      { id := newId, title := p.title.take MAX_TITLE_CHARS, status := "active",
        priority := p.priority.getD "normal",
        context := (p.context.getD "").take MAX_CONTEXT_CHARS,
        nextAction := p.nextAction, blocker := none, waitingFor := none,
        parentId := p.parentId, tags := p.tags,
        createdAt := now, updatedAt := now, completedAt := none }
    .ok (tasks1 ++ [task], task)

/-- Removing the oldest terminal tasks removes at least one task when a
terminal task exists. -/
theorem pruneTerminal_length_lt (tasks : List Task) (t : Task) (ht : t ∈ tasks)
    (hterm : (t.status == "done" || t.status == "cancelled") = true) :
    (pruneTerminal tasks).length < tasks.length := by
  unfold pruneTerminal
  dsimp only
  have htf : t ∈ (tasks.filter
      (fun t => t.status == "done" || t.status == "cancelled")).mergeSort updatedAtLE := by
    rw [List.mem_mergeSort, List.mem_filter]
    exact ⟨ht, hterm⟩
  set pruneable := (tasks.filter
    (fun t => t.status == "done" || t.status == "cancelled")).mergeSort updatedAtLE with hp
  obtain ⟨a, rest, hcons⟩ : ∃ a rest, pruneable = a :: rest := by
    cases hpr : pruneable with
    | nil => rw [hpr] at htf; cases htf
    | cons a rest => exact ⟨a, rest, rfl⟩
  rw [hcons]
  rw [if_pos (by simp)]
  have hamem : a ∈ tasks := by
    have : a ∈ pruneable := by rw [hcons]; exact List.mem_cons_self a rest
    rw [hp, List.mem_mergeSort, List.mem_filter] at this
    exact this.1
  apply List.length_filter_lt_length_iff_exists.mpr
  refine ⟨a, hamem, ?_⟩
  simp

/-- C5: `createTask` fails with the capacity error whenever the ledger
already holds 25 or more non-terminal tasks; and on a ledger of 100 total
tasks with fewer than 25 non-terminal ones and at least one terminal task,
it succeeds and the resulting ledger holds at most 100 tasks (the
oldest-updated terminal tasks were pruned first). -/
theorem claim_C5 (newId now : String) (tasks : List Task) (p : CreateTaskParams) :
    ((tasks.filter isNonTerminal).length ≥ 25 →
      createTask newId now tasks p = .error
        "Maximum 25 active tasks reached. Complete or cancel existing tasks first.")
    ∧ (tasks.length = 100 → (tasks.filter isNonTerminal).length < 25 →
      (∃ t ∈ tasks, (t.status == "done" || t.status == "cancelled") = true) →
      ∃ res : List Task × Task, createTask newId now tasks p = .ok res
        ∧ res.1.length ≤ 100) := by
  unfold createTask
  dsimp only
  constructor
  · intro h
    rw [if_pos (by simpa [MAX_ACTIVE_TASKS] using h)]
  · intro h100 hlt hex
    rw [if_neg (by simp only [MAX_ACTIVE_TASKS]; omega)]
    rw [if_pos (by simp [h100, MAX_TASKS])]
    refine ⟨_, rfl, ?_⟩
    obtain ⟨t, ht, hterm⟩ := hex
    have := pruneTerminal_length_lt tasks t ht hterm
    simp only [List.length_append, List.length_cons, List.length_nil]
    omega

/-- Witness tasks and parameters for C5. -/
def wActive : Task :=
  { id := "a1", title := "A", status := "active", priority := "normal",
    context := "", nextAction := none, blocker := none, waitingFor := none,
    parentId := none, tags := none, createdAt := "2026-01-01T00:00:00.000Z",
    updatedAt := "2026-01-02T00:00:00.000Z", completedAt := none }

def wDone : Task :=
  { wActive with
    id := "d1",
    status := "done",
    completedAt := some "2026-01-03T00:00:00.000Z" }

def wParams : CreateTaskParams :=
  { title := "New", context := none, priority := none, nextAction := none,
    parentId := none, tags := none }

/-- Witness for C5: 25 active tasks produce the capacity error, and a full
ledger of 1 active plus 99 done tasks admits a new task while staying at or
under 100. -/
theorem claim_C5_witness :
    (createTask "n1" "2026-02-01T00:00:00.000Z" (List.replicate 25 wActive) wParams
      = .error "Maximum 25 active tasks reached. Complete or cancel existing tasks first.")
    ∧ ∃ res : List Task × Task,
        createTask "n1" "2026-02-01T00:00:00.000Z"
          (wActive :: List.replicate 99 wDone) wParams = .ok res
        ∧ res.1.length ≤ 100 :=
  ⟨(claim_C5 "n1" "2026-02-01T00:00:00.000Z" (List.replicate 25 wActive) wParams).1
      (by decide),
    (claim_C5 "n1" "2026-02-01T00:00:00.000Z" (wActive :: List.replicate 99 wDone)
        wParams).2
      (by simp) (by decide) ⟨wDone, by simp, by decide⟩⟩

/-! ## Proactive trigger evaluator (proactive-triggers module bundled with
`src/agents/tools/execution-plan-tool.ts`) -/

structure Trigger where
  type : String
  priority : String
  message : String
  detectedAt : String
deriving DecidableEq

def STALE_TASK_HOURS : Int := 72
def TRIGGER_COOLDOWN_MS : Int := 4 * 60 * 60 * 1000
def MAX_TRIGGERS_PER_CHECK : Nat := 5

/-- `checkStaleTasks` (lines 329-355).  The ledger file contents are the
`tasks` list; `parseTime` models `new Date(s).getTime()` in milliseconds
(non-positive for missing or unparseable values) and `nowIso` the
`new Date().toISOString()` stamp.  Note the source skips the statuses
`"completed"` and `"cancelled"`, although the ledger writes `"done"` for
finished tasks. -/
def checkStaleTasks (parseTime : String → Int) (now : Int) (nowIso : String)
    (tasks : List Task) : List Trigger :=
  tasks.filterMap (fun task =>
    if task.status == "completed" || task.status == "cancelled" then none
    else
      let updatedAt := if task.updatedAt == "" then 0 else parseTime task.updatedAt
      if updatedAt > 0 ∧ now - updatedAt > STALE_TASK_HOURS * 60 * 60 * 1000 then
        let daysStale := (now - updatedAt).fdiv (24 * 60 * 60 * 1000)
        some { type := "stale_task"
               priority := if task.priority == "high" || task.priority == "critical"
                 then "high" else "medium"
               message := "Task \"" ++ task.title ++ "\" hasn\x27t been updated in "
                 ++ toString daysStale ++ " days (status: " ++ task.status
                 ++ "). Should this be completed, updated, or cancelled?"
               detectedAt := nowIso }
      else none)

/-- Trigger-evaluator state (`TriggerState`, lines 256-263).  The JS
`Record<string, number>` of fired-trigger timestamps is modelled as a
finite map `String → Option Int`, matching JS object semantics (no
duplicate keys); `fileChecksums` records `(size, mtimeMs)` per file. -/
structure TriggerState where
  fileChecksums : List (String × Int × Int)
  firedTriggers : String → Option Int
  lastRun : Int

/-- `hasFiredRecently` (lines 307-311).  `!lastFired` is true for a missing
entry and for the falsy timestamp `0`. -/
def hasFiredRecently (state : TriggerState) (now : Int) (key : String) : Bool :=
  match state.firedTriggers key with
  | none => false
  | some lastFired =>
    if lastFired = 0 then false
    else decide (now - lastFired < TRIGGER_COOLDOWN_MS)

/-- `markFired` (lines 313-322): store `now` under `key`, then delete every
entry older than twice the cooldown. -/
def markFiredMap (m : String → Option Int) (now : Int) (key : String) :
    String → Option Int :=
  fun k =>
    match (if k == key then some now else m k) with
    | none => none
    | some v => if now - v > TRIGGER_COOLDOWN_MS * 2 then none else some v

/-- The dedup key of a candidate (lines 457 and 469):
`type + ":" + message.slice(0, 80)`. -/
def triggerKey (t : Trigger) : String := t.type ++ ":" ++ t.message.take 80

/-- `priorityOrder` (line 462). -/
def priorityOrder (p : String) : Int :=
  if p == "high" then 0 else if p == "medium" then 1 else 2

/-- The dedup / cooldown / sort / limit / mark phase of
`evaluateProactiveTriggers` (lines 455-474).  The four gathering checks read
external stores and the run registry, so the gathered candidates are an
input; `now` models the `Date.now()` calls of this phase.  Returns the
alerts of this run together with the persisted successor state. -/
def runTriggerPhase (state : TriggerState) (candidates : List Trigger) (now : Int) :
    List Trigger × TriggerState :=
  let newTriggers := candidates.filter
    (fun t => !hasFiredRecently state now (triggerKey t))
  let sorted := (newTriggers.mergeSort
    (fun a b => decide (priorityOrder a.priority ≤ priorityOrder b.priority))).take
    MAX_TRIGGERS_PER_CHECK
  let fired := sorted.foldl (fun m t => markFiredMap m now (triggerKey t))
    state.firedTriggers
  (sorted, { state with firedTriggers := fired, lastRun := now })

/-- A sequence of evaluator runs sharing the persisted state. -/
def runSeq (s : TriggerState) (runs : List (List Trigger × Int)) : TriggerState :=
  runs.foldl (fun st ct => (runTriggerPhase st ct.1 ct.2).2) s

theorem markFiredMap_self (m : String → Option Int) (now : Int) (key : String) :
    markFiredMap m now key key = some now := by
  simp only [markFiredMap, beq_self_eq_true, if_true]
  rw [if_neg (by simp only [TRIGGER_COOLDOWN_MS]; omega)]

theorem markFiredMap_other (m : String → Option Int) (now : Int) (key k : String)
    (hk : k ≠ key) (v : Int) (hv : m k = some v)
    (hkeep : ¬ now - v > TRIGGER_COOLDOWN_MS * 2) :
    markFiredMap m now key k = some v := by
  simp only [markFiredMap]
  rw [if_neg (by simpa using hk), hv]
  simp only [if_neg hkeep]

theorem foldl_markFired_lookup (now : Int) (l : List Trigger) (m : String → Option Int)
    (k : String)
    (hm : m k = some now ∨ ∃ t ∈ l, triggerKey t = k) :
    (l.foldl (fun m t => markFiredMap m now (triggerKey t)) m) k = some now := by
  induction l generalizing m with
  | nil =>
    rcases hm with h | ⟨t, ht, _⟩
    · exact h
    · cases ht
  | cons t l ih =>
    simp only [List.foldl_cons]
    apply ih
    by_cases hk : k = triggerKey t
    · left
      rw [hk]
      exact markFiredMap_self m now (triggerKey t)
    · rcases hm with h | ⟨t', ht', hkey⟩
      · left
        exact markFiredMap_other m now (triggerKey t) k hk now h
          (by simp only [TRIGGER_COOLDOWN_MS]; omega)
      · rcases List.mem_cons.mp ht' with rfl | ht''
        · exact absurd hkey.symm hk
        · exact Or.inr ⟨t', ht'', hkey⟩

/-- A run returns no trigger whose key fired less than the cooldown ago. -/
theorem runTriggerPhase_no_refire (s : TriggerState) (c : List Trigger) (now : Int)
    (k : String) (t₁ : Int) (hs : s.firedTriggers k = some t₁) (h0 : t₁ ≠ 0)
    (hcool : now - t₁ < TRIGGER_COOLDOWN_MS) :
    ∀ tr ∈ (runTriggerPhase s c now).1, triggerKey tr ≠ k := by
  intro tr htr hkey
  unfold runTriggerPhase at htr
  dsimp only at htr
  have hmem := List.mem_mergeSort.mp (List.mem_of_mem_take htr)
  have hfilt := (List.mem_filter.mp hmem).2
  rw [hkey] at hfilt
  rw [show hasFiredRecently s now k = true by
    simp only [hasFiredRecently, hs, if_neg h0, decide_eq_true_eq]
    exact hcool] at hfilt
  simp at hfilt

theorem foldl_markFired_preserve (now t₁ : Int) (k : String) (l : List Trigger)
    (m : String → Option Int) (hm : m k = some t₁)
    (hkeep : ¬ now - t₁ > TRIGGER_COOLDOWN_MS * 2)
    (hl : ∀ tr ∈ l, triggerKey tr ≠ k) :
    (l.foldl (fun m t => markFiredMap m now (triggerKey t)) m) k = some t₁ := by
  induction l generalizing m with
  | nil => exact hm
  | cons t l ih =>
    simp only [List.foldl_cons]
    have hne : triggerKey t ≠ k := hl t (List.mem_cons_self t l)
    exact ih (markFiredMap m now (triggerKey t))
      (markFiredMap_other m now (triggerKey t) k (fun h => hne h.symm) t₁ hm hkeep)
      (fun tr htr => hl tr (List.mem_cons_of_mem t htr))

/-- A run within the cooldown window neither re-fires nor forgets a fired
key: its persisted timestamp survives unchanged. -/
theorem runTriggerPhase_preserves (s : TriggerState) (c : List Trigger) (now : Int)
    (k : String) (t₁ : Int) (hs : s.firedTriggers k = some t₁) (h0 : t₁ ≠ 0)
    (hcool : now - t₁ < TRIGGER_COOLDOWN_MS) :
    (runTriggerPhase s c now).2.firedTriggers k = some t₁ := by
  have hout := runTriggerPhase_no_refire s c now k t₁ hs h0 hcool
  unfold runTriggerPhase at hout ⊢
  dsimp only at hout ⊢
  apply foldl_markFired_preserve now t₁ k _ _ hs
  · simp only [TRIGGER_COOLDOWN_MS] at hcool ⊢
    omega
  · exact hout

/-- A trigger returned by a run has its dedup key recorded at that run's
clock time in the persisted state. -/
theorem runTriggerPhase_marks (s : TriggerState) (c : List Trigger) (t₁ : Int)
    (tr : Trigger) (htr : tr ∈ (runTriggerPhase s c t₁).1) :
    (runTriggerPhase s c t₁).2.firedTriggers (triggerKey tr) = some t₁ := by
  unfold runTriggerPhase at htr ⊢
  dsimp only at htr ⊢
  exact foldl_markFired_lookup t₁ _ _ _ (Or.inr ⟨tr, htr, rfl⟩)

/-- The fired timestamp of a key survives any sequence of runs whose clock
times stay within the cooldown window of the firing. -/
theorem runSeq_preserves (k : String) (t₁ : Int) (h0 : t₁ ≠ 0)
    (l : List (List Trigger × Int)) (s : TriggerState)
    (hs : s.firedTriggers k = some t₁)
    (htimes : ∀ r ∈ l, r.2 - t₁ < TRIGGER_COOLDOWN_MS) :
    (runSeq s l).firedTriggers k = some t₁ := by
  induction l generalizing s with
  | nil => exact hs
  | cons r l ih =>
    simp only [runSeq, List.foldl_cons] at *
    exact ih _
      (runTriggerPhase_preserves s r.1 r.2 k t₁ hs h0 (htimes r (List.mem_cons_self r l)))
      (fun r' hr' => htimes r' (List.mem_cons_of_mem _ hr'))

/-- C8: once a trigger's dedup key (type plus first 80 characters of the
message) has been included in one run's returned alerts at clock time `t₁`,
no run starting within the 4-hour cooldown window of that firing — with any
number of intermediate in-window runs sharing the persisted state — returns
a trigger with the same dedup key.  (`t₁ ≠ 0` because the JS guard treats a
stored timestamp of `0` as absent.) -/
theorem claim_C8 (s₀ : TriggerState) (c₀ : List Trigger) (t₁ : Int) (tr : Trigger)
    (htr : tr ∈ (runTriggerPhase s₀ c₀ t₁).1) (h0 : t₁ ≠ 0)
    (mid : List (List Trigger × Int))
    (hmid : ∀ r ∈ mid, r.2 - t₁ < TRIGGER_COOLDOWN_MS)
    (c : List Trigger) (t : Int) (ht : t - t₁ < TRIGGER_COOLDOWN_MS) :
    ∀ tr' ∈ (runTriggerPhase (runSeq (runTriggerPhase s₀ c₀ t₁).2 mid) c t).1,
      triggerKey tr' ≠ triggerKey tr := by
  have h1 := runTriggerPhase_marks s₀ c₀ t₁ tr htr
  have h2 := runSeq_preserves (triggerKey tr) t₁ h0 mid _ h1 hmid
  exact runTriggerPhase_no_refire _ c t _ t₁ h2 h0 ht

/-- Witness state and trigger for C8. -/
def wState0 : TriggerState :=
  { fileChecksums := [], firedTriggers := fun _ => none, lastRun := 0 }

def wTrig : Trigger :=
  { type := "stale_task", priority := "high", message := "m", detectedAt := "d" }

/-- Witness for C8: a trigger fired at time 1000 is not returned again by a
run at time 2000 fed the same candidate. -/
theorem claim_C8_witness :
    wTrig ∉ (runTriggerPhase (runSeq (runTriggerPhase wState0 [wTrig] 1000).2 [])
      [wTrig] 2000).1 :=
  fun hmem =>
    claim_C8 wState0 [wTrig] 1000 wTrig
      (by simp [runTriggerPhase, hasFiredRecently, wState0, List.mergeSort_singleton,
        MAX_TRIGGERS_PER_CHECK])
      (by decide) [] (by simp) [wTrig] 2000 (by decide) wTrig hmem rfl

/-- C1 fails on the code: the stale-task check skips the statuses
`"completed"` and `"cancelled"`, but the ledger's terminal statuses are
`"done"` and `"cancelled"`.  A task with terminal status `"done"` whose
`updatedAt` parses to 100 hours before `now` produces a `stale_task`
candidate, contradicting the claim that terminal tasks never do. -/
theorem claim_C1 :
    (checkStaleTasks (fun _ => 1000) 360001000 "2026-01-05T00:00:00.000Z"
      [wDone]).map (fun t => t.type) = ["stale_task"]
    ∧ wDone.status = "done" := by
  constructor
  · decide
  · rfl

/-! ## Tool-failure store (`src/memory/tool-failure-store.ts`) -/

structure ToolFailure where
  toolName : String
  pattern : String
  category : String
  count : Nat
  lesson : String
  firstSeen : String
  lastSeen : String
deriving DecidableEq

def MAX_FAILURES : Nat := 100
def MAX_PATTERN_LENGTH : Nat := 200

structure PatternMatch where
  category : String
  pattern : String
  lesson : String
deriving DecidableEq

/-- One entry of `ERROR_CLASSIFIERS` (lines 60-95): the regex `test` is
modelled as a string predicate and the `lesson` builder as a function of
the tool name (the regex match object is unused by every lesson builder in
the source). -/
structure ErrorClassifier where
  test : String → Bool
  category : String
  lesson : String → String

/-- `classifyError` (lines 97-130).  `normalize` models the replacement
chain of lines 106-110 (hex ids, timestamps, URLs and long quoted strings
replaced by placeholders, then `.trim()`), applied after the
`.slice(0, MAX_PATTERN_LENGTH)` prefix cut.  Empty or shorter-than-5
error text is rejected before any classifier runs. -/
def classifyError (classifiers : List ErrorClassifier) (normalize : String → String)
    (errorText toolName : String) : Option PatternMatch :=
  if errorText.length < 5 then none
  else
    match classifiers.find? (fun c => c.test errorText) with
    | some c =>
      some { category := c.category,
             pattern := normalize (errorText.take MAX_PATTERN_LENGTH),
             lesson := c.lesson toolName }
    | none =>
      if errorText.length > 20 then
        some { category := "other",
               pattern := (errorText.take MAX_PATTERN_LENGTH).trim,
               lesson := toolName ++ " failed — review the error and adjust approach." }
      else none

/-- The duplicate test of `recordToolFailure` (lines 180-187): same tool,
same category, and identical pattern or matching 50-character pattern
start. -/
def failureMatches (toolName : String) (classified : PatternMatch)
    (f : ToolFailure) : Bool :=
  f.toolName == toolName && f.category == classified.category
    && (f.pattern == classified.pattern
      || f.pattern.take 50 == classified.pattern.take 50)

/-- The eviction comparator (line 200): ascending count, then ascending
(oldest-first) `lastSeen`. -/
def failurePruneLE (a b : ToolFailure) : Bool :=
  decide (a.count < b.count ∨ (a.count = b.count ∧ a.lastSeen ≤ b.lastSeen))

/-- In-place mutation of the first record satisfying `p`, as the JS
`find`-then-mutate idiom does. -/
def updateFirst (p : ToolFailure → Bool) (f : ToolFailure → ToolFailure) :
    List ToolFailure → List ToolFailure
  | [] => []
  | x :: xs => if p x then f x :: xs else x :: updateFirst p f xs

/-- The body of `recordToolFailure` after classification succeeded
(lines 176-214): bump the matching record and keep the longer lesson, or
evict the 10 lowest-count oldest records when at capacity and append a
fresh record with count 1. -/
def bumpRecord (classified : PatternMatch) (now : String) (f : ToolFailure) :
    ToolFailure :=
  { f with
    count := f.count + 1
    lastSeen := now
    lesson := if classified.lesson.length > f.lesson.length
      then classified.lesson else f.lesson }

def recordClassified (store : List ToolFailure) (toolName : String)
    (classified : PatternMatch) (now : String) : List ToolFailure :=
  match store.find? (failureMatches toolName classified) with
  | some _ =>
    updateFirst (failureMatches toolName classified) (bumpRecord classified now) store
  | none =>
    let store1 :=
      if store.length ≥ MAX_FAILURES then (store.mergeSort failurePruneLE).drop 10
      else store
    store1 ++ [{ toolName := toolName, pattern := classified.pattern,
                 category := classified.category, count := 1,
                 lesson := classified.lesson, firstSeen := now, lastSeen := now }]

/-- `recordToolFailure` (lines 168-216): a failure that does not classify
leaves the store untouched. -/
def recordToolFailure (classifiers : List ErrorClassifier) (normalize : String → String)
    (store : List ToolFailure) (toolName errorText now : String) : List ToolFailure :=
  match classifyError classifiers normalize errorText toolName with
  | none => store
  | some classified => recordClassified store toolName classified now

theorem updateFirst_length (p : ToolFailure → Bool) (f : ToolFailure → ToolFailure)
    (l : List ToolFailure) : (updateFirst p f l).length = l.length := by
  induction l with
  | nil => rfl
  | cons x xs ih =>
    unfold updateFirst
    split_ifs <;> simp [ih]

theorem updateFirst_append_no (p : ToolFailure → Bool) (f : ToolFailure → ToolFailure)
    (l1 l2 : List ToolFailure) (h : ∀ x ∈ l1, p x = false) :
    updateFirst p f (l1 ++ l2) = l1 ++ updateFirst p f l2 := by
  induction l1 with
  | nil => rfl
  | cons x xs ih =>
    simp only [List.cons_append, updateFirst]
    rw [if_neg (by simp [h x (List.mem_cons_self x xs)])]
    rw [List.append_eq, ih (fun y hy => h y (List.mem_cons_of_mem x hy))]

theorem updateFirst_cons_yes (p : ToolFailure → Bool) (f : ToolFailure → ToolFailure)
    (x : ToolFailure) (xs : List ToolFailure) (h : p x = true) :
    updateFirst p f (x :: xs) = f x :: xs := by
  unfold updateFirst
  rw [if_pos h]

/-- The fresh record appended for a classified failure matches its own
duplicate test. -/
theorem failureMatches_fresh (toolName : String) (classified : PatternMatch)
    (now1 : String) :
    failureMatches toolName classified
      { toolName := toolName, pattern := classified.pattern,
        category := classified.category, count := 1,
        lesson := classified.lesson, firstSeen := now1, lastSeen := now1 } = true := by
  simp [failureMatches]

/-- Recording a classified failure into a store with no matching record and
below capacity appends exactly one fresh record. -/
theorem recordClassified_fresh (store : List ToolFailure) (toolName : String)
    (classified : PatternMatch) (now : String)
    (hno : ∀ f ∈ store, failureMatches toolName classified f = false)
    (hcap : store.length < MAX_FAILURES) :
    recordClassified store toolName classified now
      = store ++ [{ toolName := toolName, pattern := classified.pattern,
                    category := classified.category, count := 1,
                    lesson := classified.lesson, firstSeen := now,
                    lastSeen := now }] := by
  unfold recordClassified
  rw [List.find?_eq_none.mpr (by simpa using hno)]
  dsimp only
  rw [if_neg (by omega)]

/-- Recording a classified failure into a store whose only match is a final
appended record bumps that record in place. -/
theorem recordClassified_found_append (store : List ToolFailure) (toolName : String)
    (classified : PatternMatch) (now : String) (r : ToolFailure)
    (hno : ∀ f ∈ store, failureMatches toolName classified f = false)
    (hr : failureMatches toolName classified r = true) :
    recordClassified (store ++ [r]) toolName classified now
      = store ++ [bumpRecord classified now r] := by
  have hfind : (store ++ [r]).find? (failureMatches toolName classified) = some r := by
    rw [List.find?_append, List.find?_eq_none.mpr (by simpa using hno)]
    simp [List.find?_cons, hr]
  unfold recordClassified
  rw [hfind]
  rw [updateFirst_append_no _ _ _ _ hno, updateFirst_cons_yes _ _ _ _ hr]

/-- Recording a classified failure that matches an existing record mutates
the first matching record in place: count is incremented, `lastSeen`
refreshed, the longer lesson kept, and nothing is appended. -/
theorem recordClassified_merge (store : List ToolFailure) (toolName : String)
    (classified : PatternMatch) (now : String) (r : ToolFailure)
    (hfound : store.find? (failureMatches toolName classified) = some r) :
    ∃ l1 l2, store = l1 ++ r :: l2
      ∧ (∀ x ∈ l1, failureMatches toolName classified x = false)
      ∧ recordClassified store toolName classified now
        = l1 ++ bumpRecord classified now r :: l2
      ∧ (recordClassified store toolName classified now).length = store.length := by
  obtain ⟨hp, l1, l2, hsplit, hprev⟩ := List.find?_eq_some.mp hfound
  have hrec : recordClassified store toolName classified now
      = updateFirst (failureMatches toolName classified) (bumpRecord classified now)
        store := by
    unfold recordClassified
    rw [hfound]
  refine ⟨l1, l2, hsplit, fun x hx => by simpa using hprev x hx, ?_, ?_⟩
  · rw [hrec, hsplit, updateFirst_append_no _ _ _ _
      (fun x hx => by simpa using hprev x hx)]
    rw [updateFirst_cons_yes _ _ _ _ hp]
  · rw [hrec]
    exact updateFirst_length _ _ store

/-- C6: recording the same classifiable failure three times yields a single
record with count 3 (no duplicates appended); and an incoming failure with
the same tool and category whose pattern is identical to — or shares the
first 50 characters with — an existing record's pattern increments that
record's count and keeps the longer lesson instead of appending. -/
theorem claim_C6 (store : List ToolFailure) (toolName : String)
    (classified : PatternMatch) (now1 now2 now3 : String) (r : ToolFailure) :
    ((∀ f ∈ store, failureMatches toolName classified f = false) →
      store.length < MAX_FAILURES →
      recordClassified (recordClassified (recordClassified store toolName classified now1)
          toolName classified now2) toolName classified now3
        = store ++ [{ toolName := toolName, pattern := classified.pattern,
                      category := classified.category, count := 3,
                      lesson := classified.lesson, firstSeen := now1,
                      lastSeen := now3 }])
    ∧ (store.find? (failureMatches toolName classified) = some r →
      ∃ l1 l2, store = l1 ++ r :: l2
        ∧ recordClassified store toolName classified now1
          = l1 ++ bumpRecord classified now1 r :: l2
        ∧ (recordClassified store toolName classified now1).length = store.length) := by
  constructor
  · intro hno hcap
    rw [recordClassified_fresh store toolName classified now1 hno hcap]
    rw [recordClassified_found_append store toolName classified now2 _ hno
      (failureMatches_fresh toolName classified now1)]
    rw [recordClassified_found_append store toolName classified now3 _ hno
      (by simp [bumpRecord, failureMatches])]
    simp only [bumpRecord, List.append_cancel_left_eq]
    norm_num
  · intro hfound
    obtain ⟨l1, l2, h1, _, h3, h4⟩ :=
      recordClassified_merge store toolName classified now1 r hfound
    exact ⟨l1, l2, h1, h3, h4⟩

/-- Witness pattern and record for C6. -/
def wPattern : PatternMatch :=
  { category := "rate_limit", pattern := "429 Too Many Requests",
    lesson := "web_fetch hits rate limits — add delays between calls or reduce batch size." }

def wFail429 : ToolFailure :=
  { toolName := "web_fetch", pattern := "429 Too Many Requests",
    category := "rate_limit", count := 7, lesson := "short lesson",
    firstSeen := "2026-01-01", lastSeen := "2026-01-02" }

/-- Witness for C6: three identical classified failures on an empty store
leave one record with count 3, and a matching incoming failure bumps the
existing record without appending. -/
theorem claim_C6_witness :
    (recordClassified (recordClassified (recordClassified [] "web_fetch" wPattern "t1")
        "web_fetch" wPattern "t2") "web_fetch" wPattern "t3"
      = [{ toolName := "web_fetch", pattern := wPattern.pattern,
           category := wPattern.category, count := 3,
           lesson := wPattern.lesson, firstSeen := "t1", lastSeen := "t3" }])
    ∧ (∃ l1 l2, [wFail429] = l1 ++ wFail429 :: l2
        ∧ recordClassified [wFail429] "web_fetch" wPattern "t1"
          = l1 ++ bumpRecord wPattern "t1" wFail429 :: l2
        ∧ (recordClassified [wFail429] "web_fetch" wPattern "t1").length
          = ([wFail429] : List ToolFailure).length) :=
  ⟨(claim_C6 [] "web_fetch" wPattern "t1" "t2" "t3" wFail429).1
      (by simp) (by decide),
    (claim_C6 [wFail429] "web_fetch" wPattern "t1" "t2" "t3" wFail429).2
      (by decide)⟩

/-- C10: `recordToolFailure` leaves the store completely unchanged when the
error text is shorter than 5 characters, whatever the classifier table
matches on that text: the length guard runs before any classifier. -/
theorem claim_C10 (classifiers : List ErrorClassifier) (normalize : String → String)
    (store : List ToolFailure) (toolName errorText now : String)
    (h : errorText.length < 5) :
    recordToolFailure classifiers normalize store toolName errorText now = store := by
  unfold recordToolFailure classifyError
  rw [if_pos h]

/-- Substring occurrence over character lists. -/
def containsSub (sub : List Char) : List Char → Bool
  | [] => sub.isEmpty
  | c :: rest => sub.isPrefixOf (c :: rest) || containsSub sub rest

/-- The `rate_limit` classifier entry restricted to the `429` alternative of
its regex `/429|rate.?limit|too many requests|quota exceeded|throttl/i`:
the test fires on any text containing `"429"`. -/
def wRateLimit : ErrorClassifier :=
  { test := fun s => containsSub "429".data s.data,
    category := "rate_limit",
    lesson := fun tool =>
      tool ++ " hits rate limits — add delays between calls or reduce batch size." }

/-- Witness for C10: the bare text `"429"` matches the rate-limit test but
is under 5 characters, so the store (here one existing record) is
untouched. -/
theorem claim_C10_witness :
    ("429".length < 5)
    ∧ wRateLimit.test "429" = true
    ∧ recordToolFailure [wRateLimit] (fun s => s) [wFail429] "web_fetch" "429"
        "2026-01-05" = [wFail429] :=
  ⟨by decide, by decide,
    claim_C10 [wRateLimit] (fun s => s) [wFail429] "web_fetch" "429" "2026-01-05"
      (by decide)⟩

/-! ## Correction detector (`src/memory/correction-detector.ts`)

The detector's rule tables are JS regexes.  They are embedded with a small
regular-expression evaluator over character lists: `RE` covers exactly the
constructs the tables use (case-insensitive literals, character sets, `\w`,
`\s`, `+`, `*`, `?`, alternation and the zero-width word boundary `\b`).
Kleene repetition occurs in the tables only over single character classes,
so it is the dedicated `many` constructor.  `matchRE` enumerates all match
splits (order of enumeration is irrelevant for the boolean `test`). -/

/-- JS `\w`: `[A-Za-z0-9_]`. -/
def isWordChar (c : Char) : Bool := c.isAlphanum || c == '_'

/-- JS `\s` (the ASCII part, which is all the messages here use). -/
def isSpaceChar (c : Char) : Bool := c == ' ' || c == '\t' || c == '\n' || c == '\r'

inductive RE where
  | eps : RE
  | cls : (Char → Bool) → RE
  | many : (Char → Bool) → RE
  | bnd : RE
  | seq : RE → RE → RE
  | alt : RE → RE → RE

/-- JS `\b`: exactly one side of the position is a word character; the
ends of the string count as non-word. -/
def isWordOpt : Option Char → Bool
  | none => false
  | some c => isWordChar c

def isBoundary (prev : Option Char) (s : List Char) : Bool :=
  isWordOpt prev != isWordOpt s.head?

/-- All splits of `s` after consuming zero or more `p`-characters; the
first component tracks the character preceding the rest (for `\b`). -/
def manySplits (p : Char → Bool) (prev : Option Char) (s : List Char) :
    List (Option Char × List Char) :=
  (prev, s) ::
    match s with
    | [] => []
    | c :: rest => if p c then manySplits p (some c) rest else []

/-- All `(previous character, remaining input)` states after matching `re`
at the start of `s`, with `prev` the character before `s`. -/
def matchRE : RE → Option Char → List Char → List (Option Char × List Char)
  | .eps, prev, s => [(prev, s)]
  | .cls p, _, s =>
    match s with
    | [] => []
    | c :: rest => if p c then [(some c, rest)] else []
  | .many p, prev, s => manySplits p prev s
  | .bnd, prev, s => if isBoundary prev s then [(prev, s)] else []
  | .seq a b, prev, s => (matchRE a prev s).flatMap (fun pr => matchRE b pr.1 pr.2)
  | .alt a b, prev, s => matchRE a prev s ++ matchRE b prev s

def searchAux (re : RE) : Option Char → List Char → Bool
  | prev, [] => !(matchRE re prev []).isEmpty
  | prev, c :: rest => !(matchRE re prev (c :: rest)).isEmpty || searchAux re (some c) rest

/-- `re.test(s)` for an unanchored JS regex: try every start position. -/
def reSearch (re : RE) (s : String) : Bool := searchAux re none s.data

/-- `re.test(s)` for a `^`-anchored JS regex: match at the start only. -/
def reMatchStart (re : RE) (s : String) : Bool := !(matchRE re none s.data).isEmpty

/-- Case-insensitive literal (`w` is given lowercased). -/
def lit (w : String) : RE :=
  w.data.foldr (fun c acc => .seq (.cls (fun d => d.toLower == c)) acc) .eps

def rseq (l : List RE) : RE := l.foldr .seq .eps

def ralts : List RE → RE
  | [] => .cls (fun _ => false)
  | [r] => r
  | r :: rest => .alt r (ralts rest)

def ropt (r : RE) : RE := .alt r .eps

/-- A character set such as `[,.]`, matched case-insensitively. -/
def rsetOf (cs : List Char) : RE := .cls (fun d => cs.contains d.toLower)

/-- `\w+` -/
def rwp : RE := .seq (.cls isWordChar) (.many isWordChar)

/-- `\s+` -/
def wsp : RE := .seq (.cls isSpaceChar) (.many isSpaceChar)

/-- `\s*` -/
def wss : RE := .many isSpaceChar

/-- `'?` -/
def apos : RE := ropt (lit "\x27")

/-- `/\b(that'?s\s+(wrong|incorrect|not\s+right|not\s+correct))\b/i` -/
def reThatsWrong : RE :=
  rseq [.bnd, lit "that", apos, lit "s", wsp,
    ralts [lit "wrong", lit "incorrect", rseq [lit "not", wsp, lit "right"],
      rseq [lit "not", wsp, lit "correct"]], .bnd]

/-- `/\bno[,.]?\s+(it'?s|that'?s|the\s+\w+\s+is)\b/i` -/
def reNoIts : RE :=
  rseq [.bnd, lit "no", ropt (rsetOf [',', '.']), wsp,
    ralts [rseq [lit "it", apos, lit "s"], rseq [lit "that", apos, lit "s"],
      rseq [lit "the", wsp, rwp, wsp, lit "is"]], .bnd]

/-- `/\bnot\s+\w+[,]\s*(it'?s|use|the)\b/i` -/
def reNotComma : RE :=
  rseq [.bnd, lit "not", wsp, rwp, rsetOf [','], wss,
    ralts [rseq [lit "it", apos, lit "s"], lit "use", lit "the"], .bnd]

/-- `/\bactually[,]?\s+(it'?s|the|you|we|I)\b/i` -/
def reActually : RE :=
  rseq [.bnd, lit "actually", ropt (rsetOf [',']), wsp,
    ralts [rseq [lit "it", apos, lit "s"], lit "the", lit "you", lit "we", lit "i"],
    .bnd]

/-- `/\bI\s+meant\b/i` -/
def reIMeant : RE := rseq [.bnd, lit "i", wsp, lit "meant", .bnd]

/-- `/\buse\s+\w+\s+instead\b/i` -/
def reUseInstead : RE := rseq [.bnd, lit "use", wsp, rwp, wsp, lit "instead", .bnd]

/-- `/\bthe\s+correct\s+(way|answer|one|value|IP|path|url)\b/i` -/
def reTheCorrect : RE :=
  rseq [.bnd, lit "the", wsp, lit "correct", wsp,
    ralts [lit "way", lit "answer", lit "one", lit "value", lit "ip", lit "path",
      lit "url"], .bnd]

/-- `/\bnot\s+\w+[,]\s*\w+/i` -/
def reNotCommaWord : RE := rseq [.bnd, lit "not", wsp, rwp, rsetOf [','], wss, rwp]

/-- `/\bdon'?t\s+ask\s+(me\s+)?(for\s+)?permission\b/i` -/
def reDontAskPermission : RE :=
  rseq [.bnd, lit "don", apos, lit "t", wsp, lit "ask", wsp,
    ropt (rseq [lit "me", wsp]), ropt (rseq [lit "for", wsp]), lit "permission", .bnd]

/-- `/\bstop\s+(asking|doing|saying|sending)\b/i` -/
def reStopAsking : RE :=
  rseq [.bnd, lit "stop", wsp,
    ralts [lit "asking", lit "doing", lit "saying", lit "sending"], .bnd]

/-- `/\bjust\s+do\s+it\b/i` -/
def reJustDoIt : RE := rseq [.bnd, lit "just", wsp, lit "do", wsp, lit "it", .bnd]

/-- `/\bdon'?t\s+(ask|wait|check)\s*(,|\b)/i` -/
def reDontAsk : RE :=
  rseq [.bnd, lit "don", apos, lit "t", wsp,
    ralts [lit "ask", lit "wait", lit "check"], wss, ralts [rsetOf [','], .bnd]]

/-- `/\bfrom\s+now\s+on\b/i` -/
def reFromNowOn : RE := rseq [.bnd, lit "from", wsp, lit "now", wsp, lit "on", .bnd]

/-- `/\bI\s+prefer\b/i` -/
def reIPrefer : RE := rseq [.bnd, lit "i", wsp, lit "prefer", .bnd]

/-- `/\balways\s+(do|use|send|check|make)\b/i` -/
def reAlwaysDo : RE :=
  rseq [.bnd, lit "always", wsp,
    ralts [lit "do", lit "use", lit "send", lit "check", lit "make"], .bnd]

/-- `/\bnever\s+(do|use|send|ask|make)\b/i` -/
def reNeverDo : RE :=
  rseq [.bnd, lit "never", wsp,
    ralts [lit "do", lit "use", lit "send", lit "ask", lit "make"], .bnd]

/-- `/\bremember\s+(to\s+)?(always|never)\b/i` -/
def reRemember : RE :=
  rseq [.bnd, lit "remember", wsp, ropt (rseq [lit "to", wsp]),
    ralts [lit "always", lit "never"], .bnd]

/-- `/\bI\s+(already|just)\s+told\s+you\b/i` -/
def reIToldYou : RE :=
  rseq [.bnd, lit "i", wsp, ralts [lit "already", lit "just"], wsp, lit "told",
    wsp, lit "you", .bnd]

/-- `/\bhow\s+many\s+times\b/i` -/
def reHowManyTimes : RE :=
  rseq [.bnd, lit "how", wsp, lit "many", wsp, lit "times", .bnd]

/-- `/\bagain\s*\?/i` -/
def reAgain : RE := rseq [.bnd, lit "again", wss, lit "?"]

/-- `/^no[,.\s]/i` (anchored) -/
def reLeadingNo : RE := rseq [lit "no", rsetOf [',', '.', ' ', '\t', '\n', '\r']]

/-- `/\bwrong\b/i` -/
def reWrong : RE := rseq [.bnd, lit "wrong", .bnd]

/-- `/\bincorrect\b/i` -/
def reIncorrect : RE := rseq [.bnd, lit "incorrect", .bnd]

/-- `/\bshould\s+(be|have|use)\b/i` -/
def reShouldBe : RE :=
  rseq [.bnd, lit "should", wsp, ralts [lit "be", lit "have", lit "use"], .bnd]

/-- `/\bdon'?t\s+\w+\s+that\b/i` -/
def reDontThat : RE :=
  rseq [.bnd, lit "don", apos, lit "t", wsp, rwp, wsp, lit "that", .bnd]

/-- `/\binstead\b/i` -/
def reInstead : RE := rseq [.bnd, lit "instead", .bnd]

/-- One row of a rule table: the regex test plus its category. -/
structure PatternRule where
  test : String → Bool
  category : CorrectionCategory

/-- `STRONG_PATTERNS` (lines 17-47), in source order. -/
def STRONG_PATTERNS : List PatternRule :=
  [ ⟨reSearch reThatsWrong, .factual⟩,
    ⟨reSearch reNoIts, .factual⟩,
    ⟨reSearch reNotComma, .factual⟩,
    ⟨reSearch reActually, .factual⟩,
    ⟨reSearch reIMeant, .factual⟩,
    ⟨reSearch reUseInstead, .procedural⟩,
    ⟨reSearch reTheCorrect, .factual⟩,
    ⟨reSearch reNotCommaWord, .factual⟩,
    ⟨reSearch reDontAskPermission, .behavioral⟩,
    ⟨reSearch reStopAsking, .behavioral⟩,
    ⟨reSearch reJustDoIt, .behavioral⟩,
    ⟨reSearch reDontAsk, .behavioral⟩,
    ⟨reSearch reFromNowOn, .preference⟩,
    ⟨reSearch reIPrefer, .preference⟩,
    ⟨reSearch reAlwaysDo, .preference⟩,
    ⟨reSearch reNeverDo, .preference⟩,
    ⟨reSearch reRemember, .preference⟩,
    ⟨reSearch reIToldYou, .behavioral⟩,
    ⟨reSearch reHowManyTimes, .behavioral⟩,
    ⟨reSearch reAgain, .behavioral⟩ ]

/-- `WEAK_PATTERNS` (lines 50-57), in source order. -/
def WEAK_PATTERNS : List PatternRule :=
  [ ⟨reMatchStart reLeadingNo, .factual⟩,
    ⟨reSearch reWrong, .factual⟩,
    ⟨reSearch reIncorrect, .factual⟩,
    ⟨reSearch reShouldBe, .procedural⟩,
    ⟨reSearch reDontThat, .behavioral⟩,
    ⟨reSearch reInstead, .procedural⟩ ]

structure CorrectionSignal where
  detected : Bool
  confidence : ℚ
  userMessage : String
  agentMessage : Option String
  category : Option CorrectionCategory

/-- JS `String.prototype.trim` over the character list. -/
def jsTrim (s : String) : String :=
  ⟨((s.data.dropWhile isSpaceChar).reverse.dropWhile isSpaceChar).reverse⟩

/-- `Math.round(q * 100) / 100` (line 111). -/
def roundTo2 (q : ℚ) : ℚ := (round (q * 100) : ℤ) / 100

/-- The `categoryCounts` map (lines 96-99): a JS `Map` accumulating weight
per category in first-insertion order. -/
def bumpAssoc (acc : List (CorrectionCategory × ℚ)) (c : CorrectionCategory)
    (w : ℚ) : List (CorrectionCategory × ℚ) :=
  match acc with
  | [] => [(c, w)]
  | (c0, w0) :: rest =>
    if c0 = c then (c0, w0 + w) :: rest else (c0, w0) :: bumpAssoc rest c w

/-- The dominant-category scan (lines 100-107): strictly greater weight
wins, so the first category reaching the maximum is kept. -/
def pickMax (counts : List (CorrectionCategory × ℚ)) : Option CorrectionCategory :=
  (counts.foldl (fun best cw => if cw.2 > best.2 then (some cw.1, cw.2) else best)
    ((none : Option CorrectionCategory), (0 : ℚ))).1

/-- `detectCorrection` (lines 59-116), parametric in the two rule tables
(instantiated with `STRONG_PATTERNS` / `WEAK_PATTERNS` above). -/
def detectCorrection (strongTbl weakTbl : List PatternRule)
    (userMessage : String) (previousAgentMessage : Option String) : CorrectionSignal :=
  let msg := jsTrim userMessage
  if msg.length < 3 then
    { detected := false, confidence := 0, userMessage := msg,
      agentMessage := previousAgentMessage, category := none }
  else
    let strongMatches := (strongTbl.filter (fun r => r.test msg)).map
      (fun r => ((0.4 : ℚ), r.category))
    let weakMatches := (weakTbl.filter (fun r => r.test msg)).map
      (fun r => ((0.15 : ℚ), r.category))
    let totalWeight := (strongMatches.map Prod.fst).sum + (weakMatches.map Prod.fst).sum
    let detected := decide (1 ≤ strongMatches.length ∨ 2 ≤ weakMatches.length)
    let confidence := min 1 totalWeight
    let allMatches := strongMatches ++ weakMatches
    let categoryCounts := allMatches.foldl (fun acc m => bumpAssoc acc m.2 m.1) []
    let category := pickMax categoryCounts
    { detected := detected, confidence := roundTo2 confidence, userMessage := msg,
      agentMessage := previousAgentMessage,
      category := if detected then category else none }

theorem sum_weights (l : List PatternRule) (w : ℚ) :
    ((l.map (fun r => (w, r.category))).map Prod.fst).sum = l.length * w := by
  induction l with
  | nil => simp
  | cons a l ih =>
    simp only [List.map_cons, List.sum_cons, List.length_cons]
    rw [ih]
    push_cast
    ring

/-- C7: for every message whose trimmed length is at least 3,
`detectCorrection` detects exactly when at least one strong pattern or at
least two weak patterns match, with confidence `min(1, 0.4·#strong +
0.15·#weak)` rounded to two decimals; a message whose trimmed length is
under 3 yields `detected = false` and confidence 0; and on the input
`"No, that's wrong, it's actually the staging server"` the source tables
give `detected = true`, category `factual` and positive confidence. -/
theorem claim_C7 (strongTbl weakTbl : List PatternRule) (userMessage : String)
    (prev : Option String) :
    (3 ≤ (jsTrim userMessage).length →
      (((detectCorrection strongTbl weakTbl userMessage prev).detected = true)
        ↔ (1 ≤ (strongTbl.filter (fun r => r.test (jsTrim userMessage))).length
          ∨ 2 ≤ (weakTbl.filter (fun r => r.test (jsTrim userMessage))).length))
      ∧ (detectCorrection strongTbl weakTbl userMessage prev).confidence
        = roundTo2 (min 1
            (((strongTbl.filter (fun r => r.test (jsTrim userMessage))).length : ℚ) * 0.4
              + ((weakTbl.filter (fun r => r.test (jsTrim userMessage))).length : ℚ)
                * 0.15)))
    ∧ ((jsTrim userMessage).length < 3 →
      (detectCorrection strongTbl weakTbl userMessage prev).detected = false
      ∧ (detectCorrection strongTbl weakTbl userMessage prev).confidence = 0)
    ∧ ((detectCorrection STRONG_PATTERNS WEAK_PATTERNS
          "No, that\x27s wrong, it\x27s actually the staging server" none).detected = true
      ∧ (detectCorrection STRONG_PATTERNS WEAK_PATTERNS
          "No, that\x27s wrong, it\x27s actually the staging server" none).category
        = some CorrectionCategory.factual
      ∧ 0 < (detectCorrection STRONG_PATTERNS WEAK_PATTERNS
          "No, that\x27s wrong, it\x27s actually the staging server" none).confidence) := by
  refine ⟨?_, ?_, ?_, ?_⟩
  · intro h
    unfold detectCorrection
    rw [if_neg (not_lt.mpr h)]
    dsimp only
    constructor
    · rw [decide_eq_true_iff]
      simp [List.length_map]
    · rw [List.map_map, List.map_map]
      have hs := sum_weights (strongTbl.filter (fun r => r.test (jsTrim userMessage))) 0.4
      have hw := sum_weights (weakTbl.filter (fun r => r.test (jsTrim userMessage))) 0.15
      rw [List.map_map] at hs hw
      rw [hs, hw]
  · intro h
    unfold detectCorrection
    rw [if_pos h]
    exact ⟨rfl, rfl⟩
  · decide
  · have h1 : STRONG_PATTERNS.filter (fun r => r.test
        (jsTrim "No, that\x27s wrong, it\x27s actually the staging server"))
        = [⟨reSearch reThatsWrong, .factual⟩, ⟨reSearch reNoIts, .factual⟩,
           ⟨reSearch reActually, .factual⟩] := by
      simp only [STRONG_PATTERNS, List.filter_cons]
      simp +decide
    have h2 : WEAK_PATTERNS.filter (fun r => r.test
        (jsTrim "No, that\x27s wrong, it\x27s actually the staging server"))
        = [⟨reMatchStart reLeadingNo, .factual⟩, ⟨reSearch reWrong, .factual⟩] := by
      simp only [WEAK_PATTERNS, List.filter_cons]
      simp +decide
    have h3 : ¬ (jsTrim
        "No, that\x27s wrong, it\x27s actually the staging server").length < 3 := by
      decide
    unfold detectCorrection
    rw [if_neg h3]
    dsimp only
    rw [h1, h2]
    norm_num [bumpAssoc, pickMax, roundTo2, round_eq]

/-- Witness for C7 at concrete inputs: a 6-character message exercises the
detection rule, a 2-character message the short-message guard. -/
theorem claim_C7_witness :
    (3 ≤ (jsTrim "No way").length
      ∧ ((detectCorrection STRONG_PATTERNS WEAK_PATTERNS "No way" none).detected = true
        ↔ (1 ≤ (STRONG_PATTERNS.filter
              (fun r => r.test (jsTrim "No way"))).length
          ∨ 2 ≤ (WEAK_PATTERNS.filter
              (fun r => r.test (jsTrim "No way"))).length)))
    ∧ ((jsTrim "hi").length < 3
      ∧ (detectCorrection STRONG_PATTERNS WEAK_PATTERNS "hi" none).detected = false) :=
  ⟨⟨by decide,
      ((claim_C7 STRONG_PATTERNS WEAK_PATTERNS "No way" none).1 (by decide)).1⟩,
    ⟨by decide,
      ((claim_C7 STRONG_PATTERNS WEAK_PATTERNS "hi" none).2.1 (by decide)).1⟩⟩

end Hands
